import Mathlib

/-!
Verification of the bitcoin-nostr-relay Relay Server against its
natural-language specification.

The Rust source (src/relay/server.rs, src/relay/config.rs) is shallowly
embedded below.  External collaborators (the tokio runtime, the WebSocket
transport, the serde_json parser, the bitcoin consensus codec and the
transaction validator, which live outside the server code) are passed in as
explicit function parameters, so every handler becomes a pure function from
its inputs and the responses of its collaborators to the ordered list of
observable actions it performs.
-/

namespace BNR

/-- JSON values, mirroring `serde_json::Value`.  Objects are association
lists; lookup takes the first binding of a key. -/
inductive Json where
  | null : Json
  | bool (b : Bool) : Json
  | num (n : Int) : Json
  | str (s : String) : Json
  | arr (xs : List Json) : Json
  | obj (fields : List (String × Json)) : Json

/-- Embeds `Value::is_null`. -/
def Json.isNull : Json → Bool
  | Json.null => true
  | _ => false

/-- Embeds `Value::as_str`. -/
def Json.asStr : Json → Option String
  | Json.str s => some s
  | _ => none

/-- Embeds `Value::as_array`. -/
def Json.asArr : Json → Option (List Json)
  | Json.arr xs => some xs
  | _ => none

/-- Object field lookup, as in `Value::get(key)`: `None` on non-objects or
missing keys. -/
def jGet : Json → String → Option Json
  | Json.obj fields, key => fields.lookup key
  | _, _ => none

/-- Indexing `value[key]`, as in the serde `Index` trait: yields `Null` when the key
is missing or the value is not an object. -/
def jIndex (j : Json) (key : String) : Json :=
  (jGet j key).getD Json.null

mutual

/-- Compact JSON rendering, matching the `Display` impl of `serde_json::Value` (used by
`anyhow!("... {}", error)`).  String escaping is elided: the rendered values
in this development are plain ASCII without quotes or control characters. -/
def Json.render : Json → String
  | Json.null => "null"
  | Json.bool true => "true"
  | Json.bool false => "false"
  | Json.num n => toString n
  | Json.str s => "\"" ++ s ++ "\""
  | Json.arr xs => "[" ++ Json.renderArr xs ++ "]"
  | Json.obj fs => "\x7b" ++ Json.renderObj fs ++ "\x7d"

/-- Comma-separated rendering of array elements. -/
def Json.renderArr : List Json → String
  | [] => ""
  | [x] => Json.render x
  | x :: rest => Json.render x ++ "," ++ Json.renderArr rest

/-- Comma-separated rendering of object fields. -/
def Json.renderObj : List (String × Json) → String
  | [] => ""
  | [(k, v)] => "\"" ++ k ++ "\":" ++ Json.render v
  | (k, v) :: rest => "\"" ++ k ++ "\":" ++ Json.render v ++ "," ++ Json.renderObj rest

end

/-- Value of one hexadecimal digit, as accepted by `hex::decode`. -/
def hexDigit (c : Char) : Option Nat :=
  if '0' ≤ c ∧ c ≤ '9' then some (c.toNat - '0'.toNat)
  else if 'a' ≤ c ∧ c ≤ 'f' then some (c.toNat - 'a'.toNat + 10)
  else if 'A' ≤ c ∧ c ≤ 'F' then some (c.toNat - 'A'.toNat + 10)
  else none

/-- Embeds `hex::decode` on a character list: fails on odd length or a non-hex
digit, otherwise produces the byte list. -/
def hexPairs : List Char → Option (List Nat)
  | [] => some []
  | [_] => none
  | c1 :: c2 :: rest =>
    match hexDigit c1, hexDigit c2, hexPairs rest with
    | some h, some l, some tail => some ((h * 16 + l) :: tail)
    | _, _, _ => none

/-- Embeds `hex::decode` on a string. -/
def hexDecode (s : String) : Option (List Nat) :=
  hexPairs s.data

/-- Whether `pat` occurs as a contiguous sublist of `l`. -/
def listInfix (pat : List Char) : List Char → Bool
  | [] => pat.isEmpty
  | c :: rest => pat.isPrefixOf (c :: rest) || listInfix pat rest

/-- Embeds `str::contains(pattern)` of Rust for string patterns. -/
def strContains (s pat : String) : Bool :=
  listInfix pat.data s.data

/-- Removal of leading and trailing whitespace from a character list. -/
def trimChars (l : List Char) : List Char :=
  ((l.dropWhile Char.isWhitespace).reverse.dropWhile Char.isWhitespace).reverse

/-- Embeds `str::trim` of Rust (server.rs:185 `event.content.trim()`). -/
def strTrim (s : String) : String :=
  String.mk (trimChars s.data)

/-- The substring test from `handle_remote_transaction` (server.rs:594):
an RPC failure message is treated as "transaction already known" when it
contains `"already in mempool"` or `"already exists"`. -/
def isAlreadyKnownMsg (m : String) : Bool :=
  strContains m "already in mempool" || strContains m "already exists"

/-- Nostr tags as used by this server: `Tag::Hashtag(s)` and
`Tag::Generic(TagKind::Custom k, values)`; other variants of the nostr
crate type `Tag` are collapsed into `other` (the server never constructs or
matches them). -/
inductive Tag where
  | hashtag (s : String) : Tag
  | generic (kind : String) (values : List String) : Tag
  | other : Tag
deriving DecidableEq

/-- The parts of a nostr `Event` the server reads or writes: `kind`,
`content`, `tags`.  The id/pubkey/signature fields are produced by the
external `EventBuilder::to_event` and never inspected by the server. -/
structure Event where
  kind : Nat
  content : String
  tags : List Tag
deriving DecidableEq

/-- Outcome of `TransactionValidator::validate` as observed by the server:
`Ok(())`, `Err(RecentlyProcessed(txid))`, or any other `Err(e)` carrying
its display message. -/
inductive ValidationResult where
  | ok : ValidationResult
  | recentlyProcessed (txid : String) : ValidationResult
  | err (msg : String) : ValidationResult
deriving DecidableEq

/-! ## Events the server constructs (server.rs:269-287, 412-433) -/

/-- The `TX_BROADCAST` (kind 20012) event built by `broadcast_transaction`
(server.rs:412-433): hashtags `bitcoin` and `transaction`, plus a generic tag
of custom kind `"relay_id"` holding `config.relay_id`.  The serialized
content (txid/size/version/inputs/outputs/hex JSON) is passed in already
rendered; the server never reads it back. -/
def broadcastEvent (relayId : String) (content : String) : Event :=
  { kind := 20012
    content := content
    tags := [Tag.hashtag "bitcoin", Tag.hashtag "transaction",
             Tag.generic "relay_id" [relayId]] }

/-- The `TX_RESPONSE` (kind 20011) event built by `send_tx_response`
(server.rs:276-280).  The source passes `&[]` for the tags: the event is
built with an empty tag list. -/
def txResponseEvent (content : String) : Event :=
  { kind := 20011, content := content, tags := [] }

/-- Whether an event carries a generic tag of custom kind `"relay_id"` one
of whose values is `relayId`. -/
def hasRelayIdTag (relayId : String) (e : Event) : Bool :=
  e.tags.any fun t =>
    match t with
    | Tag.generic k vs => k == "relay_id" && vs.contains relayId
    | _ => false

/-! ## Remote-transaction handler (server.rs:559-603) -/

/-- The tag test of the self-origin check (server.rs:561-568): a generic tag
of custom kind `"relay_id"` with a non-empty value list whose first value is
our `config.relay_id`. -/
def isSelfOriginTag (relayId : String) : Tag → Bool
  | Tag.generic k vs =>
    k == "relay_id" && !vs.isEmpty && vs.headD "" == relayId
  | _ => false

/-- Observable actions of `handle_remote_transaction`, in program order:
insertion of a txid into `remote_transactions`, a call of the validator, a
`sendrawtransaction` submission to the Bitcoin node, and the two warning
logs. -/
inductive RAction where
  | insertRemote (txid : String) : RAction
  | validateCall (hex : String) : RAction
  | submitCall (hex : String) : RAction
  | warnValidation : RAction
  | warnSubmitFail : RAction
deriving DecidableEq

/-- Embeds `handle_remote_transaction` (server.rs:559-603) as a pure function.
`parse` stands for `serde_json::from_str` on the event content, `validate`
for `TransactionValidator::validate`, and `submit` for
`submit_to_bitcoin_node` (hex in, `Result<String>` out).  The result is
`none` when the handler returns `Err` (content fails to parse) and
`some acts` when it returns `Ok(())` after performing `acts` in order. -/
def handle_remote_transaction (relayId : String)
    (parse : String → Option Json)
    (validate : String → ValidationResult)
    (submit : String → Except String String)
    (e : Event) : Option (List RAction) :=
  if e.tags.any (isSelfOriginTag relayId) then
    some []
  else
    match parse e.content with
    | none => none
    | some txData =>
      match (jGet txData "hex").bind Json.asStr with
      | none => some []
      | some txHex =>
        match (jGet txData "txid").bind Json.asStr with
        | none => some []
        | some txid =>
          let base := [RAction.insertRemote txid, RAction.validateCall txHex]
          match validate txHex with
          | ValidationResult.recentlyProcessed _ => some base
          | ValidationResult.err _ => some (base ++ [RAction.warnValidation])
          | ValidationResult.ok =>
            match submit txHex with
            | Except.ok _ => some (base ++ [RAction.submitCall txHex])
            | Except.error m =>
              if isAlreadyKnownMsg m then
                some (base ++ [RAction.submitCall txHex])
              else
                some (base ++ [RAction.submitCall txHex, RAction.warnSubmitFail])

/-! ## Submit-tx handler (server.rs:182-287) -/

/-- A `TX_RESPONSE` reply handed to `send_tx_response`: the success flag,
message and txid serialized into the event content, and the client id whose
channel it is addressed to. -/
inductive SAction where
  | response (success : Bool) (message : String) (txid : String)
      (clientId : String) : SAction
deriving DecidableEq

/-- The client id a reply is addressed to. -/
def SAction.client : SAction → String
  | SAction.response _ _ _ c => c

/-- Embeds `handle_submit_tx` (server.rs:182-233) as a pure function producing the
list of replies it sends.  `validate` stands for the validator, `deser` for
`bitcoin::consensus::deserialize::<Transaction>` composed with
`Transaction::txid` (returning the computed txid on success), and `submit`
for `submit_to_bitcoin_node`.  Hex decoding is the embedded `hexDecode`. -/
def handle_submit_tx
    (validate : String → ValidationResult)
    (deser : List Nat → Option String)
    (submit : String → Except String String)
    (content : String) (clientId : String) : List SAction :=
  let txHex := strTrim content
  match validate txHex with
  | ValidationResult.recentlyProcessed _ =>
    [SAction.response false "Transaction recently processed" "" clientId]
  | ValidationResult.err m =>
    [SAction.response false m "" clientId]
  | ValidationResult.ok =>
    match hexDecode txHex with
    | none => [SAction.response false "Invalid hex encoding" "" clientId]
    | some txBytes =>
      match deser txBytes with
      | none => [SAction.response false "Invalid transaction format" "" clientId]
      | some txid =>
        match submit txHex with
        | Except.ok _ => [SAction.response true "Transaction accepted" txid clientId]
        | Except.error m => [SAction.response false m txid clientId]

/-- Delivery performed by `send_tx_response` (server.rs:282-284): look the originating
client up in the `clients` map and send on its channel only; a client that
has disconnected receives nothing.  `clients` maps client ids to channel
handles (abstracted as `Nat`); the result is the list of channels the event
is sent on. -/
def send_tx_response_targets (clients : List (String × Nat))
    (clientId : String) : List Nat :=
  match clients.lookup clientId with
  | some ch => [ch]
  | none => []

/-! ## Mempool monitor (server.rs:296-346) -/

/-- Result of one pass over the freshly fetched mempool list inside
the polling loop of `monitor_mempool`: either the loop body completes with the
updated `known_txids` and the txids handed to `broadcast_transaction`, or
the `?` on `hex::decode(&raw_tx)` (server.rs:324) fires and the whole
`monitor_mempool` function returns `Err` — `err` records the txids already
broadcast before the failure. -/
inductive StepOut where
  | ok (known published : List String) : StepOut
  | err (published : List String) : StepOut
deriving DecidableEq

/-- The `for txid in &current_txids` loop of `monitor_mempool`
(server.rs:314-335).  `getRaw` stands for `get_raw_transaction` (`none` when
it returns `Err`), `deser` for `bitcoin::consensus::deserialize` succeeding
on the decoded bytes.  `known` and `published` are accumulators; a new txid
present in `remote` is recorded as known without being broadcast. -/
def monitorProcess (getRaw : String → Option String) (deser : List Nat → Bool)
    (remote : List String) :
    List String → List String → List String → StepOut
  | known, published, [] => StepOut.ok known published
  | known, published, txid :: rest =>
    if known.contains txid then
      monitorProcess getRaw deser remote known published rest
    else if remote.contains txid then
      monitorProcess getRaw deser remote (txid :: known) published rest
    else
      match getRaw txid with
      | none => monitorProcess getRaw deser remote (txid :: known) published rest
      | some raw =>
        match hexDecode raw with
        | none => StepOut.err published
        | some bytes =>
          if deser bytes then
            monitorProcess getRaw deser remote (txid :: known) (txid :: published) rest
          else
            monitorProcess getRaw deser remote (txid :: known) published rest

/-- One poll iteration of `monitor_mempool` in the case where
`get_mempool_txids` succeeded with `current` (server.rs:313-338): process
every txid, then `known_txids.retain(|txid| current_txids.contains(txid))`. -/
def monitorPollStep (getRaw : String → Option String) (deser : List Nat → Bool)
    (remote known current : List String) : StepOut :=
  match monitorProcess getRaw deser remote known [] current with
  | StepOut.ok k p => StepOut.ok (k.filter fun t => current.contains t) p
  | StepOut.err p => StepOut.err p

/-! ## Raw JSON-RPC helpers of the server (server.rs:236-266, 349-409) -/

/-- The `result` extraction of `submit_to_bitcoin_node` (server.rs:260-265):
`response["result"].as_str()` or the error `"No txid in response"`. -/
def submitResultPart (response : Json) : Except String String :=
  match (jIndex response "result").asStr with
  | some s => Except.ok s
  | none => Except.error "No txid in response"

/-- Embeds `submit_to_bitcoin_node` (server.rs:236-266) applied to the JSON body the
node answered with: a non-null `error` field becomes the anyhow string error
`"Bitcoin RPC error: <error>"` — a plain string, with no structured
subkind — otherwise the `result` string is the txid. -/
def submit_to_bitcoin_node (response : Json) : Except String String :=
  match jGet response "error" with
  | some e =>
    if !e.isNull then Except.error ("Bitcoin RPC error: " ++ Json.render e)
    else submitResultPart response
  | none => submitResultPart response

/-- The txid-list extraction of `get_mempool_txids` (server.rs:373-378):
`response["result"].as_array().unwrap_or(&vec![])` mapped through
`as_str().unwrap_or("")`. -/
def mempoolResultPart (response : Json) : List String :=
  ((jIndex response "result").asArr.getD []).map fun v => v.asStr.getD ""

/-- Embeds `get_mempool_txids` (server.rs:349-381) applied to the JSON body the node
answered with (the transport layer, which can fail before a body exists, is
external). -/
def get_mempool_txids (response : Json) : Except String (List String) :=
  match jGet response "error" with
  | some e =>
    if !e.isNull then Except.error ("Bitcoin RPC error: " ++ Json.render e)
    else Except.ok (mempoolResultPart response)
  | none => Except.ok (mempoolResultPart response)

/-- Whether a JSON-RPC response body has an absent or null `error` field. -/
def errorFieldOk (response : Json) : Bool :=
  match jGet response "error" with
  | some e => e.isNull
  | none => true

/-! ## Client connection loop (server.rs:100-140) -/

/-- WebSocket messages as matched by `handle_connection`. -/
inductive WsMsg where
  | text (s : String) : WsMsg
  | close : WsMsg
  | other : WsMsg
deriving DecidableEq

/-- One item of the inbound WebSocket stream: a message, or a transport
error (`msg` being `Err`). -/
inductive FrameResult where
  | ok (m : WsMsg) : FrameResult
  | err : FrameResult
deriving DecidableEq

/-- What `handle_connection` did by the time it returned: whether
`broadcast_task.abort()` ran, whether the `clients` entry was removed, and
whether the function returned `Err`. -/
structure ConnOutcome where
  aborted : Bool
  removed : Bool
  returnedErr : Bool
deriving DecidableEq

/-- The inbound loop of `handle_connection` (server.rs:122-139) over the
stream of inbound frames.  A `Text` frame is handed to
`handle_nostr_message`, whose error (e.g. malformed JSON) is logged and the
loop continues; `Close` breaks the loop; an errored frame hits the `?` on
`msg?` (server.rs:123) and `handle_connection` returns `Err` immediately —
before `broadcast_task.abort()` and the `clients` removal.  Loop exit by
`break` or stream end reaches the abort and removal (each exactly once). -/
def connLoop : List FrameResult → ConnOutcome
  | [] => { aborted := true, removed := true, returnedErr := false }
  | FrameResult.err :: _ => { aborted := false, removed := false, returnedErr := true }
  | FrameResult.ok WsMsg.close :: _ =>
    { aborted := true, removed := true, returnedErr := false }
  | FrameResult.ok _ :: rest => connLoop rest

/-! ## Uplink subscription (server.rs:474-498) -/

/-- The subscription frame built by `try_connect_to_strfry`
(server.rs:487-495): `["REQ", "tx_relay_<relay_id>", {kinds:[20012],
"#t":["bitcoin","transaction"], since:<now>}]`. -/
def subscriptionFrame (relayId : String) (now : Int) : Json :=
  Json.arr
    [Json.str "REQ",
     Json.str ("tx_relay_" ++ relayId),
     Json.obj
       [("kinds", Json.arr [Json.num 20012]),
        ("#t", Json.arr [Json.str "bitcoin", Json.str "transaction"]),
        ("since", Json.num now)]]

/-- The frames `try_connect_to_strfry` sends between a successful WebSocket
connect and entering its select loop (server.rs:479-498): exactly the one
subscription frame. -/
def connectPreamble (relayId : String) (now : Int) : List Json :=
  [subscriptionFrame relayId now]

/-! ## Configuration (config.rs:43-65) -/

/-- Embeds `RpcAuth` (config.rs:7-10). -/
structure RpcAuth where
  username : String
  password : String
deriving DecidableEq

/-- Embeds `RelayConfig` (config.rs:14-41).  `SocketAddr` is kept as its string
form and `Duration` as whole seconds; the `validation_config` field (whose
type lives in the validation module, not consulted by any claim) is
omitted. -/
structure RelayConfig where
  bitcoin_rpc_url : String
  bitcoin_rpc_auth : RpcAuth
  strfry_url : String
  relay_id : String
  websocket_listen_addr : String
  mempool_poll_interval_secs : Nat
  max_client_connections : Nat
  websocket_buffer_size : Nat
deriving DecidableEq

/-- Embeds `RelayConfig::new` (config.rs:45-65). -/
def RelayConfig.new (bitcoin_rpc_url strfry_url relay_id : String)
    (websocket_listen_addr : String) : RelayConfig :=
  { bitcoin_rpc_url := bitcoin_rpc_url
    bitcoin_rpc_auth := { username := "user", password := "password" }
    strfry_url := strfry_url
    relay_id := relay_id
    websocket_listen_addr := websocket_listen_addr
    mempool_poll_interval_secs := 2
    max_client_connections := 1000
    websocket_buffer_size := 100 }

/-! ## Claim C1: self-origin suppression in the remote handler -/

/-- C1.  Every inbound bus `TX_BROADCAST` event carrying a generic tag of
custom kind `"relay_id"` whose first value equals the configured relay id is
dropped by `handle_remote_transaction` with `Ok(())` and an empty action
trace: no validator call, no `sendrawtransaction`, and no insertion into
`remote_transactions` — regardless of the JSON parser, validator and node
behaviour. -/
theorem c1_self_origin_drop (relayId : String)
    (parse : String → Option Json) (validate : String → ValidationResult)
    (submit : String → Except String String) (e : Event) (rest : List String)
    (h : Tag.generic "relay_id" (relayId :: rest) ∈ e.tags) :
    handle_remote_transaction relayId parse validate submit e = some [] := by
  have hany : e.tags.any (isSelfOriginTag relayId) = true := by
    refine List.any_eq_true.mpr ⟨_, h, ?_⟩
    simp [isSelfOriginTag]
  simp [handle_remote_transaction, hany]

/-- Witness for C1 at a concrete event. -/
theorem c1_self_origin_drop_witness :
    Tag.generic "relay_id" ["A"] ∈
      (Event.mk 20012 "junk" [Tag.generic "relay_id" ["A"]]).tags ∧
    handle_remote_transaction "A" (fun _ => none)
      (fun _ => ValidationResult.ok) (fun _ => Except.error "down")
      (Event.mk 20012 "junk" [Tag.generic "relay_id" ["A"]]) = some [] :=
  ⟨List.mem_cons_self _ _,
   c1_self_origin_drop "A" (fun _ => none) (fun _ => ValidationResult.ok)
     (fun _ => Except.error "down")
     (Event.mk 20012 "junk" [Tag.generic "relay_id" ["A"]]) []
     (List.mem_cons_self _ _)⟩

/-! ## Claim C4: the monitor loop and the stray question mark -/

/-- C4 (refutation at the failing input).  The claim says monitor_mempool
never returns an error once polling: but when a newly seen, non-remote txid
is fetched and `get_raw_transaction` answers with a string that is not valid
hex, the `?` on `hex::decode(&raw_tx)` (server.rs:324) propagates the error
out of `monitor_mempool`, terminating the monitor task.  Here the node
returns `"zz"` for txid `"t1"` and the poll step ends in the error state. -/
theorem c4_monitor_dies_on_bad_hex :
    monitorPollStep (fun _ => some "zz") (fun _ => true) [] [] ["t1"] =
      StepOut.err [] := rfl

/-! ## Claim C5: which produced events carry the relay_id tag -/

/-- C5 (counterexample).  The claim says every event produced by the relay
carries a `relay_id` tag; but `send_tx_response` (server.rs:276-280) builds
its `TX_RESPONSE` event with the empty tag slice `&[]`, so the produced
event carries no `relay_id` tag at all. -/
theorem c5_counterexample :
    hasRelayIdTag "A" (txResponseEvent "\x7b\"success\":false\x7d") = false := rfl

/-- C5 (amended).  The `TX_BROADCAST` events built by
`broadcast_transaction` always carry a generic tag of custom kind
`"relay_id"` with value `config.relay_id`, while the `TX_RESPONSE` events
built by `send_tx_response` are always built with an empty tag list (and so
carry no `relay_id` tag). -/
theorem c5_broadcast_tagged_response_untagged (relayId content c : String) :
    hasRelayIdTag relayId (broadcastEvent relayId content) = true ∧
    (txResponseEvent c).tags = [] := by
  refine ⟨?_, rfl⟩
  simp [hasRelayIdTag, broadcastEvent]

/-! ## Claim C6: client disconnect handling -/

/-- C6 (counterexample).  The claim says that on an errored inbound frame
the outbound task is aborted and the `clients` entry removed; but the `?` on
`msg?` (server.rs:123) returns from `handle_connection` before
`broadcast_task.abort()` and before the `clients` removal, so neither
happens. -/
theorem c6_counterexample :
    connLoop [FrameResult.err] =
      ConnOutcome.mk false false true := rfl

/-- C6 (amended).  When the inbound WebSocket leg ends without a
transport-level error — by a `Close` frame or by the stream ending — the
outbound broadcast task is aborted and the `clients` entry is removed,
each exactly once, and `handle_connection` returns `Ok`.  (A malformed
inbound text frame is merely logged and the loop continues; a
transport-level error returns early, skipping both cleanups.) -/
theorem c6_clean_close_cleans_up (frames : List FrameResult)
    (h : FrameResult.err ∉ frames) :
    connLoop frames = ConnOutcome.mk true true false := by
  induction frames with
  | nil => rfl
  | cons f rest ih =>
    cases f with
    | err => exact absurd (List.mem_cons_self _ _) h
    | ok m =>
      cases m with
      | close => rfl
      | text s => exact ih fun hm => h (List.mem_cons_of_mem _ hm)
      | other => exact ih fun hm => h (List.mem_cons_of_mem _ hm)

/-- Witness for C6 (amended) at a concrete frame stream. -/
theorem c6_clean_close_cleans_up_witness :
    FrameResult.err ∉ [FrameResult.ok (WsMsg.text "junk"), FrameResult.ok WsMsg.close] ∧
    connLoop [FrameResult.ok (WsMsg.text "junk"), FrameResult.ok WsMsg.close] =
      ConnOutcome.mk true true false :=
  ⟨by decide,
   c6_clean_close_cleans_up
     [FrameResult.ok (WsMsg.text "junk"), FrameResult.ok WsMsg.close] (by decide)⟩

/-! ## Claim C8: the uplink subscription frame -/

/-- C8.  Immediately after a successful connection and before any other
traffic, the uplink sends exactly one frame, the subscription
`["REQ", "tx_relay_<relay_id>", {"kinds":[20012],
"#t":["bitcoin","transaction"], "since":<now>}]`. -/
theorem c8_subscription_frame (relayId : String) (now : Int) :
    connectPreamble relayId now =
      [Json.arr
        [Json.str "REQ",
         Json.str ("tx_relay_" ++ relayId),
         Json.obj
           [("kinds", Json.arr [Json.num 20012]),
            ("#t", Json.arr [Json.str "bitcoin", Json.str "transaction"]),
            ("since", Json.num now)]]] ∧
    (connectPreamble relayId now).length = 1 :=
  ⟨rfl, rfl⟩

/-! ## Claim C9: configuration defaults -/

/-- C9.  For every choice of the required parameters, `RelayConfig::new`
yields a poll interval of 2 seconds, a client-connection cap of 1000 and a
per-client buffer of 100. -/
theorem c9_config_defaults (rpcUrl strfryUrl relayId addr : String) :
    (RelayConfig.new rpcUrl strfryUrl relayId addr).mempool_poll_interval_secs = 2 ∧
    (RelayConfig.new rpcUrl strfryUrl relayId addr).max_client_connections = 1000 ∧
    (RelayConfig.new rpcUrl strfryUrl relayId addr).websocket_buffer_size = 100 :=
  ⟨rfl, rfl, rfl⟩

/-! ## Claim C3: submit-tx replies -/

/-- Helper: every reply `handle_submit_tx` produces is addressed to the
originating client. -/
lemma handle_submit_tx_client (validate : String → ValidationResult)
    (deser : List Nat → Option String) (submit : String → Except String String)
    (content clientId : String) :
    ∀ a ∈ handle_submit_tx validate deser submit content clientId,
      a.client = clientId := by
  intro a ha
  unfold handle_submit_tx at ha
  simp only [] at ha
  split at ha
  · simp only [List.mem_singleton] at ha; subst ha; rfl
  · simp only [List.mem_singleton] at ha; subst ha; rfl
  · split at ha
    · simp only [List.mem_singleton] at ha; subst ha; rfl
    · split at ha
      · simp only [List.mem_singleton] at ha; subst ha; rfl
      · split at ha
        · simp only [List.mem_singleton] at ha; subst ha; rfl
        · simp only [List.mem_singleton] at ha; subst ha; rfl

/-- Helper: a channel reached by `send_tx_response` is the channel
registered in the `clients` map for the originating client id. -/
lemma send_tx_response_targets_mem (clients : List (String × Nat))
    (cid : String) (ch : Nat) (h : ch ∈ send_tx_response_targets clients cid) :
    (cid, ch) ∈ clients := by
  induction clients with
  | nil => simp [send_tx_response_targets, List.lookup] at h
  | cons hd tl ih =>
    obtain ⟨k, v⟩ := hd
    unfold send_tx_response_targets at h
    rw [List.lookup] at h
    by_cases hk : (cid == k) = true
    · simp only [hk, List.mem_singleton] at h
      subst h
      have hkey : cid = k := eq_of_beq hk
      subst hkey
      exact List.mem_cons_self _ _
    · rw [Bool.not_eq_true] at hk
      simp only [hk] at h
      exact List.mem_cons_of_mem _ (ih h)

/-- C3.  The reply of `handle_submit_tx` in every case: `RecentlyProcessed`
gives `success:false, "Transaction recently processed", txid:""`; any other
validation error gives its message with `txid:""`; a hex-decode failure
gives `"Invalid hex encoding"`, a parse failure `"Invalid transaction
format"` (both with `txid:""`); a successful `sendrawtransaction` gives
`success:true, "Transaction accepted"` with the computed txid; and every
reply is addressed to the originating client only, whose registered channel
is the sole delivery target of `send_tx_response`. -/
theorem c3_submit_tx_replies (validate : String → ValidationResult)
    (deser : List Nat → Option String) (submit : String → Except String String)
    (content clientId : String) :
    (∀ t, validate (strTrim content) = ValidationResult.recentlyProcessed t →
      handle_submit_tx validate deser submit content clientId =
        [SAction.response false "Transaction recently processed" "" clientId]) ∧
    (∀ m, validate (strTrim content) = ValidationResult.err m →
      handle_submit_tx validate deser submit content clientId =
        [SAction.response false m "" clientId]) ∧
    (validate (strTrim content) = ValidationResult.ok →
     hexDecode (strTrim content) = none →
      handle_submit_tx validate deser submit content clientId =
        [SAction.response false "Invalid hex encoding" "" clientId]) ∧
    (∀ b, validate (strTrim content) = ValidationResult.ok →
     hexDecode (strTrim content) = some b → deser b = none →
      handle_submit_tx validate deser submit content clientId =
        [SAction.response false "Invalid transaction format" "" clientId]) ∧
    (∀ b txid r, validate (strTrim content) = ValidationResult.ok →
     hexDecode (strTrim content) = some b → deser b = some txid →
     submit (strTrim content) = Except.ok r →
      handle_submit_tx validate deser submit content clientId =
        [SAction.response true "Transaction accepted" txid clientId]) ∧
    (∀ a ∈ handle_submit_tx validate deser submit content clientId,
      a.client = clientId) ∧
    (∀ clients ch, ch ∈ send_tx_response_targets clients clientId →
      (clientId, ch) ∈ clients) := by
  refine ⟨?_, ?_, ?_, ?_, ?_, handle_submit_tx_client _ _ _ _ _,
    fun clients ch => send_tx_response_targets_mem clients clientId ch⟩
  · intro t hv; simp [handle_submit_tx, hv]
  · intro m hv; simp [handle_submit_tx, hv]
  · intro hv hh; simp [handle_submit_tx, hv, hh]
  · intro b hv hh hd; simp [handle_submit_tx, hv, hh, hd]
  · intro b txid r hv hh hd hs; simp [handle_submit_tx, hv, hh, hd, hs]

/-- Witness for C3 at concrete inputs. -/
theorem c3_submit_tx_replies_witness :
    handle_submit_tx (fun _ => ValidationResult.recentlyProcessed "t")
      (fun _ => none) (fun _ => Except.error "down") "abc" "c1" =
      [SAction.response false "Transaction recently processed" "" "c1"] :=
  (c3_submit_tx_replies (fun _ => ValidationResult.recentlyProcessed "t")
    (fun _ => none) (fun _ => Except.error "down") "abc" "c1").1 "t" rfl

/-! ## Claim C7: the "already known" submission errors -/

/-- A node response whose `error` field reports the transaction as already
in the mempool. -/
def alreadyInMempoolResponse : Json :=
  Json.obj
    [("error",
      Json.obj [("code", Json.num (-27)),
                ("message", Json.str "Transaction already in mempool")]),
     ("result", Json.null)]

/-- The anyhow message `submit_to_bitcoin_node` produces for that
response. -/
def alreadyKnownErrMsg : String :=
  "Bitcoin RPC error: \x7b\"code\":-27,\"message\":\"Transaction already in mempool\"\x7d"

/-- C7 (counterexample).  The claim says "already in mempool" submission
errors are surfaced as a distinguishable "already known" subkind; but
`submit_to_bitcoin_node` (server.rs:254-257) returns every RPC failure as
the same undifferentiated anyhow string `"Bitcoin RPC error: ..."` —
`Except.error` over `String`, with no subkind — and the client-path caller
`handle_submit_tx` consequently reports it as an ordinary failure
(`success := false`) instead of being able to treat it as success. -/
theorem c7_counterexample :
    submit_to_bitcoin_node alreadyInMempoolResponse =
      Except.error alreadyKnownErrMsg ∧
    isAlreadyKnownMsg alreadyKnownErrMsg = true ∧
    handle_submit_tx (fun _ => ValidationResult.ok) (fun _ => some "tid")
      (fun _ => submit_to_bitcoin_node alreadyInMempoolResponse) "00" "c1" =
      [SAction.response false alreadyKnownErrMsg "tid" "c1"] :=
  ⟨rfl, rfl, rfl⟩

/-- C7 (amended).  The only recognition of "already known" errors is inside
`handle_remote_transaction` (server.rs:594): after a failed submission it
searches the plain error message for the substrings `"already in mempool"`
and `"already exists"` and merely suppresses the warning log for them — the
submission error itself carries no distinguishable subkind.  For any
message `m`, the trace of the remote handler on a failed submission is the
same whether or not `m` matches, except for the warning action. -/
theorem c7_substring_classification (relayId : String)
    (parse : String → Option Json) (validate : String → ValidationResult)
    (m hx tx : String) (e : Event)
    (hself : e.tags.any (isSelfOriginTag relayId) = false)
    (hpar : parse e.content =
      some (Json.obj [("hex", Json.str hx), ("txid", Json.str tx)]))
    (hval : validate hx = ValidationResult.ok) :
    handle_remote_transaction relayId parse validate
      (fun _ => Except.error m) e =
      some ([RAction.insertRemote tx, RAction.validateCall hx,
             RAction.submitCall hx] ++
        (if isAlreadyKnownMsg m then [] else [RAction.warnSubmitFail])) := by
  have h1 : jGet (Json.obj [("hex", Json.str hx), ("txid", Json.str tx)])
      "hex" = some (Json.str hx) := rfl
  have h2 : jGet (Json.obj [("hex", Json.str hx), ("txid", Json.str tx)])
      "txid" = some (Json.str tx) := rfl
  simp only [handle_remote_transaction, hself, Bool.false_eq_true,
    if_false, hpar, h1, h2, Option.bind_some, Json.asStr, hval]
  cases hm : isAlreadyKnownMsg m <;> simp [hm, hval]

/-- Witness for C7 (amended) at concrete inputs. -/
theorem c7_substring_classification_witness :
    handle_remote_transaction "A"
      (fun _ => some (Json.obj [("hex", Json.str "00"), ("txid", Json.str "t")]))
      (fun _ => ValidationResult.ok) (fun _ => Except.error "boom")
      (Event.mk 20012 "c" []) =
      some [RAction.insertRemote "t", RAction.validateCall "00",
            RAction.submitCall "00", RAction.warnSubmitFail] := by
  have h := c7_substring_classification "A"
    (fun _ => some (Json.obj [("hex", Json.str "00"), ("txid", Json.str "t")]))
    (fun _ => ValidationResult.ok) "boom" "00" "t"
    (Event.mk 20012 "c" []) rfl rfl rfl
  rw [h]
  rfl

/-! ## Claim C10: leniency of the mempool txid fetch -/

/-- C10.  On every response body whose `error` field is absent or null,
`get_mempool_txids` returns `Ok`: a missing or non-array `result` yields the
empty list, and an array `result` is mapped through `as_str` with non-string
elements becoming `""`.  (It errors only on transport failure — outside
this function — or a non-null `error` field.) -/
theorem c10_mempool_fetch_lenient (resp : Json)
    (h : errorFieldOk resp = true) :
    (∃ l, get_mempool_txids resp = Except.ok l) ∧
    ((jIndex resp "result").asArr = none →
      get_mempool_txids resp = Except.ok []) ∧
    (∀ xs, (jIndex resp "result").asArr = some xs →
      get_mempool_txids resp = Except.ok (xs.map fun v => v.asStr.getD "")) := by
  have hok : get_mempool_txids resp = Except.ok (mempoolResultPart resp) := by
    unfold get_mempool_txids
    unfold errorFieldOk at h
    cases hg : jGet resp "error" with
    | none => rfl
    | some e =>
      rw [hg] at h
      have he : e.isNull = true := by simpa using h
      simp [he]
  refine ⟨⟨_, hok⟩, ?_, ?_⟩
  · intro hn
    rw [hok]
    unfold mempoolResultPart
    rw [hn]
    rfl
  · intro xs hx
    rw [hok]
    unfold mempoolResultPart
    rw [hx]
    rfl

/-- Witness for C10 at a concrete response containing a non-string element
and no error field. -/
theorem c10_mempool_fetch_lenient_witness :
    errorFieldOk (Json.obj [("result", Json.arr [Json.str "a", Json.num 3])]) = true ∧
    get_mempool_txids (Json.obj [("result", Json.arr [Json.str "a", Json.num 3])]) =
      Except.ok ["a", ""] := by
  refine ⟨rfl, ?_⟩
  have h := (c10_mempool_fetch_lenient
    (Json.obj [("result", Json.arr [Json.str "a", Json.num 3])]) rfl).2.2
    [Json.str "a", Json.num 3] rfl
  rw [h]
  rfl

/-! ## Claim C2: bus-ingested txids are never re-published -/

/-- Helper: `contains` on string lists agrees with membership. -/
lemma contains_true_iff {l : List String} {a : String} :
    l.contains a = true ↔ a ∈ l := by simp

/-- Safety of one monitor pass for a txid in `remote_transactions`: the txid
is never handed to `broadcast_transaction`, and — when the pass completes —
it has been recorded in `known_txids` if it was pending or already known. -/
def RemoteSafe (txid : String) (pending known : List String) : StepOut → Prop
  | StepOut.ok k p => txid ∉ p ∧ ((txid ∈ pending ∨ txid ∈ known) → txid ∈ k)
  | StepOut.err p => txid ∉ p

/-- Helper: peeling one processed txid off the pending list preserves
`RemoteSafe`, for any result of the rest of the pass. -/
lemma remoteSafe_lift (txid t : String) (rest known known2 : List String)
    {res : StepOut} (hsub : txid ∈ known → txid ∈ known2)
    (ht : txid = t → txid ∈ known2)
    (H : RemoteSafe txid rest known2 res) :
    RemoteSafe txid (t :: rest) known res := by
  cases res with
  | ok k p =>
    simp only [RemoteSafe] at H ⊢
    obtain ⟨Hp, Hk⟩ := H
    refine ⟨Hp, fun hmem => ?_⟩
    rcases hmem with hc | hk
    · rcases List.mem_cons.mp hc with heq | hrest
      · exact Hk (Or.inr (ht heq))
      · exact Hk (Or.inl hrest)
    · exact Hk (Or.inr (hsub hk))
  | err p => exact H

/-- Helper: the monitor pass is `RemoteSafe` for every txid of
`remote_transactions`, from any accumulator not already naming it. -/
lemma monitorProcess_remote (getRaw : String → Option String)
    (deser : List Nat → Bool) (remote : List String) (txid : String)
    (hr : txid ∈ remote) :
    ∀ (current known published : List String), txid ∉ published →
      RemoteSafe txid current known
        (monitorProcess getRaw deser remote known published current) := by
  intro current
  induction current with
  | nil =>
    intro known published hpub
    simp only [monitorProcess, RemoteSafe]
    exact ⟨hpub, fun h => h.elim (fun hc => absurd hc (List.not_mem_nil _)) id⟩
  | cons t rest ih =>
    intro known published hpub
    simp only [monitorProcess]
    by_cases h1 : known.contains t = true
    · rw [if_pos h1]
      exact remoteSafe_lift txid t rest known known id
        (fun heq => contains_true_iff.mp (by rw [heq]; exact h1))
        (ih known published hpub)
    · rw [if_neg h1]
      by_cases h2 : remote.contains t = true
      · rw [if_pos h2]
        exact remoteSafe_lift txid t rest known (t :: known)
          (List.mem_cons_of_mem t)
          (fun heq => heq ▸ List.mem_cons_self t known)
          (ih (t :: known) published hpub)
      · rw [if_neg h2]
        have hne : txid ≠ t :=
          fun heq => h2 (contains_true_iff.mpr (heq ▸ hr))
        split
        · exact remoteSafe_lift txid t rest known (t :: known)
            (List.mem_cons_of_mem t)
            (fun heq => heq ▸ List.mem_cons_self t known)
            (ih (t :: known) published hpub)
        · split
          · exact hpub
          · split
            · have hpub2 : txid ∉ t :: published := by
                intro hm
                rcases List.mem_cons.mp hm with heq | hp
                · exact hne heq
                · exact hpub hp
              exact remoteSafe_lift txid t rest known (t :: known)
                (List.mem_cons_of_mem t)
                (fun heq => heq ▸ List.mem_cons_self t known)
                (ih (t :: known) (t :: published) hpub2)
            · exact remoteSafe_lift txid t rest known (t :: known)
                (List.mem_cons_of_mem t)
                (fun heq => heq ▸ List.mem_cons_self t known)
                (ih (t :: known) published hpub)

/-- Helper: any trace of `handle_remote_transaction` containing a
submission starts with the `remote_transactions` insertion, then the
validator call, then the submission of the same hex. -/
lemma handle_remote_submit_prefix (relayId : String)
    (parse : String → Option Json) (validate : String → ValidationResult)
    (submit : String → Except String String) (e : Event)
    (acts : List RAction) (h : String)
    (hacts : handle_remote_transaction relayId parse validate submit e = some acts)
    (hmem : RAction.submitCall h ∈ acts) :
    ∃ t rest, acts = RAction.insertRemote t :: RAction.validateCall h ::
      RAction.submitCall h :: rest := by
  unfold handle_remote_transaction at hacts
  simp only [] at hacts
  split at hacts
  · obtain rfl := (Option.some.inj hacts).symm
    simp at hmem
  · split at hacts
    · exact Option.noConfusion hacts
    · split at hacts
      · obtain rfl := (Option.some.inj hacts).symm
        simp at hmem
      · split at hacts
        · obtain rfl := (Option.some.inj hacts).symm
          simp at hmem
        · split at hacts
          · obtain rfl := (Option.some.inj hacts)
            simp at hmem
          · obtain rfl := (Option.some.inj hacts)
            simp at hmem
          · split at hacts
            · obtain rfl := (Option.some.inj hacts)
              simp at hmem
              subst hmem
              exact ⟨_, _, rfl⟩
            · split at hacts
              · obtain rfl := (Option.some.inj hacts)
                simp at hmem
                subst hmem
                exact ⟨_, _, rfl⟩
              · obtain rfl := (Option.some.inj hacts)
                simp at hmem
                subst hmem
                exact ⟨_, _, rfl⟩

/-- C2.  (a) For every txid in `remote_transactions` at poll time, the
monitor pass — whether it completes or dies on the stray `?` — never hands
that txid to `broadcast_transaction` (so nothing is pushed for it to the
uplink outbox or to client channels), and on completion the txid is in the
new `known_txids` whenever it is in the current mempool.  (b) In the remote
handler, any trace containing a submission begins with the
`remote_transactions` insertion, which therefore precedes the submission
attempt. -/
theorem c2_remote_txids_not_republished :
    (∀ (getRaw : String → Option String) (deser : List Nat → Bool)
       (remote known current : List String) (txid : String),
       txid ∈ remote →
       (∀ k p, monitorPollStep getRaw deser remote known current = StepOut.ok k p →
          txid ∉ p ∧ (txid ∈ current → txid ∈ k)) ∧
       (∀ p, monitorPollStep getRaw deser remote known current = StepOut.err p →
          txid ∉ p)) ∧
    (∀ (relayId : String) (parse : String → Option Json)
       (validate : String → ValidationResult)
       (submit : String → Except String String) (e : Event)
       (acts : List RAction) (h : String),
       handle_remote_transaction relayId parse validate submit e = some acts →
       RAction.submitCall h ∈ acts →
       ∃ t rest, acts = RAction.insertRemote t :: RAction.validateCall h ::
         RAction.submitCall h :: rest) := by
  constructor
  · intro g d remote known current txid hr
    have H := monitorProcess_remote g d remote txid hr current known []
      (List.not_mem_nil _)
    constructor
    · intro k p hok
      unfold monitorPollStep at hok
      cases hres : monitorProcess g d remote known [] current with
      | ok k2 p2 =>
        rw [hres] at hok H
        simp only [RemoteSafe] at H
        obtain ⟨Hp, Hk⟩ := H
        have hok2 : StepOut.ok (k2.filter fun t => current.contains t) p2 =
            StepOut.ok k p := hok
        injection hok2 with hk2 hp2
        subst hk2
        subst hp2
        refine ⟨Hp, fun hc => ?_⟩
        refine List.mem_filter.mpr ⟨Hk (Or.inl hc), ?_⟩
        simpa using hc
      | err p2 =>
        rw [hres] at hok
        exact StepOut.noConfusion (show StepOut.err p2 = StepOut.ok k p from hok)
    · intro p herr
      unfold monitorPollStep at herr
      cases hres : monitorProcess g d remote known [] current with
      | ok k2 p2 =>
        rw [hres] at herr
        exact StepOut.noConfusion
          (show StepOut.ok (k2.filter fun t => current.contains t) p2 =
            StepOut.err p from herr)
      | err p2 =>
        rw [hres] at herr H
        have herr2 : StepOut.err p2 = StepOut.err p := herr
        injection herr2 with hp2
        subst hp2
        simpa only [RemoteSafe] using H
  · exact handle_remote_submit_prefix

/-- Witness for C2 at concrete inputs. -/
theorem c2_remote_txids_not_republished_witness :
    ("a" : String) ∈ ["a"] ∧
    (("a" : String) ∉ ([] : List String) ∧
      (("a" : String) ∈ ["a"] → ("a" : String) ∈ ["a"])) :=
  ⟨List.mem_cons_self "a" [],
   (c2_remote_txids_not_republished.1 (fun _ => none) (fun _ => false)
     ["a"] [] ["a"] "a" (List.mem_cons_self "a" [])).1 ["a"] [] rfl⟩

end BNR
